import Mathlib

/-!
Shallow embedding of the `valtor` validation library (Go) and of its
JSON-Schema adapter (`valtorjsonschema`), together with theorems checking
the natural-language specification against the code.

Conventions of the embedding:
* Go's `error` results are modelled as `Option VErr`: `none` is Go's `nil`
  error ("valid"), `some e` is a non-nil error.
* `fmt.Errorf("...: %w", err)` wrapping is modelled by the `VErr.wrap`
  constructor, which keeps the inner error inspectable and whose rendered
  message is `prefix ++ ": " ++ inner message`, as in Go.
* The distinguished sentinel `ErrValueRequired = errors.New("value is
  required")` is the constructor `VErr.required` (matchable by identity).
* Go slices that may be `nil` are modelled as `Option (List α)`,
  with `none` for the nil slice.
-/

/-- Go error values as the library observes them: the required sentinel,
an opaque formatted message, or a wrapping of an inner error with a prefix
(`fmt.Errorf` with `%w`). -/
inductive VErr : Type where
  | required : VErr
  | msg : String → VErr
  | wrap : String → VErr → VErr
deriving DecidableEq, Repr

/-- The rendered message of an error (Go's `Error()`). The sentinel
`ErrValueRequired` renders as "value is required"; a wrap renders as
`prefix: inner`. -/
def VErr.message : VErr → String
  | .required => "value is required"
  | .msg s => s
  | .wrap p e => p ++ ": " ++ e.message

/-- Runs the functions of a validator list in order on `value`, returning
the first error encountered (the loop body of `Schema.Validate` in
`validator.go`). -/
def runValidators {T : Type} : List (T → Option VErr) → T → Option VErr
  | [], _ => none
  | f :: fs, value =>
    match f value with
    | some e => some e
    | none => runValidators fs value

/-- `Schema[T]` from `validator.go`: the base type for all validation
schemas, an ordered list of validator functions. -/
structure Schema (T : Type) : Type where
  validators : List (T → Option VErr)

namespace Schema

/-- `New[T]()` from `validator.go`: a schema with an empty validator list. -/
def new (T : Type) : Schema T := ⟨[]⟩

/-- `Schema.Validate` from `validator.go`: runs all validators against the
value and returns the first error encountered, if any. -/
def Validate {T : Type} (s : Schema T) (value : T) : Option VErr :=
  runValidators s.validators value

/-- `Schema.Custom` from `validator.go`: appends a custom validation
function to the schema. -/
def Custom {T : Type} (s : Schema T) (fn : T → Option VErr) : Schema T :=
  ⟨s.validators ++ [fn]⟩

end Schema

/-- A compiled regular expression, modelled at the boundary the spec draws:
an opaque matcher plus the pattern text `re.String()` reports
(`regexp.Regexp` is an external collaborator of the library). -/
structure GoRegexp : Type where
  reString : String
  MatchString : String → Bool

/-- `StringSchema` from `string.go`: a base schema over strings plus the
`required` flag. -/
structure StringSchema : Type where
  base : Schema String
  required : Bool

namespace StringSchema

/-- `String()`: a new string schema (empty validators, not required). -/
def new : StringSchema := ⟨Schema.new String, false⟩

/-- `StringSchema.Required()`: sets the required flag. -/
def Required (s : StringSchema) : StringSchema := { s with required := true }

/-- `StringSchema.Min(min)`: appends a minimum length validator.
Go's `len` on a string is its UTF-8 byte length, hence `utf8ByteSize`. -/
def Min (s : StringSchema) (min : Nat) : StringSchema :=
  { s with base := s.base.Custom fun v =>
      if v.utf8ByteSize < min then
        some (.msg ("length must be at least " ++ toString min))
      else none }

/-- `StringSchema.Max(max)`: appends a maximum length validator. -/
def Max (s : StringSchema) (max : Nat) : StringSchema :=
  { s with base := s.base.Custom fun v =>
      if v.utf8ByteSize > max then
        some (.msg ("length must be at most " ++ toString max))
      else none }

/-- `StringSchema.Length(length)`: appends an exact length validator. -/
def Length (s : StringSchema) (length : Nat) : StringSchema :=
  { s with base := s.base.Custom fun v =>
      if v.utf8ByteSize ≠ length then
        some (.msg ("length must be exactly " ++ toString length))
      else none }

/-- `StringSchema.Regexp(re)`: appends a pattern validator. -/
def Regexp (s : StringSchema) (re : GoRegexp) : StringSchema :=
  { s with base := s.base.Custom fun v =>
      if ¬ re.MatchString v then
        some (.msg ("string must match pattern \"" ++ re.reString ++ "\""))
      else none }

/-- `StringSchema.Validate`: the required-check on the empty string comes
first, then delegation to the base schema's validator run. -/
def Validate (s : StringSchema) (value : String) : Option VErr :=
  if value = "" ∧ s.required then some .required
  else s.base.Validate value

/-- `StringSchema.Custom` (promoted from the embedded `*Schema[string]`):
appends a custom validation function. -/
def Custom (s : StringSchema) (fn : String → Option VErr) : StringSchema :=
  { s with base := s.base.Custom fn }

end StringSchema

/-- `NumberSchema[T]` from `number.go`: a base schema over an ordered
numeric representation plus the `required` flag. The Go type parameter
ranges over all integer widths and floats; the embedding keeps it generic
over a linearly ordered type with a zero. -/
structure NumberSchema (T : Type) : Type where
  base : Schema T
  required : Bool

namespace NumberSchema

variable {T : Type} [LinearOrder T] [Zero T] [ToString T]

/-- `Number[T]()`: a new number schema. -/
def new (T : Type) : NumberSchema T := ⟨Schema.new T, false⟩

/-- `NumberSchema.Required()`: requires the value to differ from the
representation's zero value. -/
def Required (s : NumberSchema T) : NumberSchema T := { s with required := true }

/-- `NumberSchema.Validate`: the required-check (value equal to the zero
value) comes first, then delegation to the base schema's validator run. -/
def Validate (s : NumberSchema T) (value : T) : Option VErr :=
  if value = 0 ∧ s.required then some .required
  else s.base.Validate value

/-- `NumberSchema.Min(min)`: appends a minimum value validator using the
representation's native ordering. -/
def Min (s : NumberSchema T) (min : T) : NumberSchema T :=
  { s with base := s.base.Custom fun v =>
      if v < min then
        some (.msg ("value must be at least " ++ toString min))
      else none }

/-- `NumberSchema.Max(max)`: appends a maximum value validator. -/
def Max (s : NumberSchema T) (max : T) : NumberSchema T :=
  { s with base := s.base.Custom fun v =>
      if v > max then
        some (.msg ("value must be at most " ++ toString max))
      else none }

/-- `NumberSchema.Custom` (promoted from the embedded `*Schema[T]`). -/
def Custom (s : NumberSchema T) (fn : T → Option VErr) : NumberSchema T :=
  { s with base := s.base.Custom fn }

end NumberSchema

/-- `BoolSchema` from `bool.go`. -/
structure BoolSchema : Type where
  base : Schema Bool

namespace BoolSchema

/-- `Bool()`: a new boolean schema. -/
def new : BoolSchema := ⟨Schema.new Bool⟩

/-- `BoolSchema.Validate`: delegates to the base schema's validator run. -/
def Validate (s : BoolSchema) (value : Bool) : Option VErr :=
  s.base.Validate value

/-- `BoolSchema.MustBeTrue()`: appends a validator failing on `false`. -/
def MustBeTrue (s : BoolSchema) : BoolSchema :=
  ⟨s.base.Custom fun v => if ¬ v then some (.msg "bool value must be true") else none⟩

/-- `BoolSchema.MustBeFalse()`: appends a validator failing on `true`. -/
def MustBeFalse (s : BoolSchema) : BoolSchema :=
  ⟨s.base.Custom fun v => if v then some (.msg "bool value must be false") else none⟩

/-- `BoolSchema.Custom` (promoted from the embedded `*Schema[bool]`). -/
def Custom (s : BoolSchema) (fn : Bool → Option VErr) : BoolSchema :=
  ⟨s.base.Custom fn⟩

end BoolSchema

/-- A Go `any` (`interface{}`) value as the dynamic-typed paths of the
library observe it: the shapes produced by JSON-decoded data and by the
adapter's test inputs. `int` models Go's `int64` (the width the adapter
normalizes integers to); `float` models `float64`, embedded as an exact
rational since the claims never exercise rounding. -/
inductive GoVal : Type where
  | null : GoVal
  | bool : Bool → GoVal
  | int : Int → GoVal
  | float : Rat → GoVal
  | str : String → GoVal
  | arr : List GoVal → GoVal
  | map : List (String × GoVal) → GoVal

/-- What Go's `%T` verb prints for the dynamic type of the value. -/
def GoVal.typeName : GoVal → String
  | .null => "<nil>"
  | .bool _ => "bool"
  | .int _ => "int64"
  | .float _ => "float64"
  | .str _ => "string"
  | .arr _ => "[]interface {}"
  | .map _ => "map[string]interface {}"

/-- Whether this `any` value is Go's `nil` (`value == nil`). -/
def GoVal.isNil : GoVal → Bool
  | .null => true
  | _ => false

/-- `NullSchema` from `null.go`. -/
structure NullSchema : Type where
  base : Schema GoVal

namespace NullSchema

/-- `Null()`: a new null schema. -/
def new : NullSchema := ⟨Schema.new GoVal⟩

/-- `NullSchema.Validate`: a non-nil value fails naming its dynamic type;
nil delegates to the base schema's validator run. -/
def Validate (s : NullSchema) (value : GoVal) : Option VErr :=
  if ¬ value.isNil then
    some (.msg ("expected null value, got " ++ value.typeName))
  else s.base.Validate value

/-- `NullSchema.Custom` (promoted from the embedded `*Schema[any]`). -/
def Custom (s : NullSchema) (fn : GoVal → Option VErr) : NullSchema :=
  ⟨s.base.Custom fn⟩

end NullSchema

/-- `PointerSchema[T]` from `pointer.go`: a base schema over `*T`
(modelled as `Option T`, `none` being the nil pointer) plus the
`required` flag. -/
structure PointerSchema (T : Type) : Type where
  base : Schema (Option T)
  required : Bool

namespace PointerSchema

/-- `Pointer[T]()`: a new pointer schema. -/
def new (T : Type) : PointerSchema T := ⟨Schema.new (Option T), false⟩

/-- `PointerSchema.Required()`: requires the pointer to be non-nil. -/
def Required {T : Type} (s : PointerSchema T) : PointerSchema T :=
  { s with required := true }

/-- `PointerSchema.NotNil()`: alias for `Required()`. -/
def NotNil {T : Type} (s : PointerSchema T) : PointerSchema T := s.Required

/-- `PointerSchema.Custom`: appends a custom validation function. -/
def Custom {T : Type} (s : PointerSchema T) (fn : Option T → Option VErr) :
    PointerSchema T :=
  { s with base := s.base.Custom fn }

/-- `PointerSchema.Validate`: the required-check on the nil pointer comes
first, then delegation to the base schema's validator run. -/
def Validate {T : Type} (s : PointerSchema T) (value : Option T) : Option VErr :=
  if value.isNone ∧ s.required then some .required
  else s.base.Validate value

end PointerSchema

/-- `Ptr(schema)` from `pointer.go`: wraps another validator (given by its
`Validate` method) so a present value is validated by dereference-then-
delegate while the nil pointer is skipped (left to `Required()`). -/
def Ptr {T : Type} (schema : T → Option VErr) : PointerSchema T :=
  (PointerSchema.new T).Custom fun value =>
    match value with
    | none => none
    | some v => schema v

/-- `json.Marshal` as the uniqueness-check capability the spec scopes it
to: a deterministic serialization of an item, `none` when marshaling
fails. -/
class GoJSON (T : Type) : Type where
  marshal : T → Option String

instance : GoJSON String := ⟨fun s => some ("\"" ++ s ++ "\"")⟩

instance : GoJSON Int := ⟨fun n => some (toString n)⟩

instance : GoJSON Bool := ⟨fun b => some (toString b)⟩

/-- `ArraySchema[T]` from `array.go`: a base schema over slices of `T`
plus the optional per-item validator. -/
structure ArraySchema (T : Type) : Type where
  base : Schema (List T)
  itemValidator : Option (T → Option VErr)

/-- The loop of the `Items` validator: fails at the first index whose item
fails, wrapping the inner error with that index. -/
def itemsCheck {T : Type} (validator : T → Option VErr) : Nat → List T → Option VErr
  | _, [] => none
  | i, item :: rest =>
    match validator item with
    | some e => some (.wrap ("invalid item at index " ++ toString i) e)
    | none => itemsCheck validator (i + 1) rest

/-- The loop of the `UniqueItems` validator: marshals each item to a
comparison key and fails at the first duplicate, naming its index. -/
def uniqueCheck {T : Type} [GoJSON T] (seen : List String) (i : Nat) :
    List T → Option VErr
  | [] => none
  | item :: rest =>
    match GoJSON.marshal item with
    | none =>
      some (.msg ("failed to marshal array item for uniqueness check at index "
        ++ toString i))
    | some key =>
      if seen.contains key then
        some (.msg ("array items must be unique (duplicate found at index "
          ++ toString i ++ ")"))
      else uniqueCheck (key :: seen) (i + 1) rest

namespace ArraySchema

/-- `Array[T]()`: a new array schema. -/
def new (T : Type) : ArraySchema T := ⟨Schema.new (List T), none⟩

/-- `ArraySchema.Items(validator)`: records the item validator and appends
the per-item predicate. -/
def Items {T : Type} (s : ArraySchema T) (validator : T → Option VErr) :
    ArraySchema T :=
  { base := s.base.Custom (itemsCheck validator 0), itemValidator := some validator }

/-- `ArraySchema.Min(min)`: appends a minimum length validator. -/
def Min {T : Type} (s : ArraySchema T) (min : Nat) : ArraySchema T :=
  { s with base := s.base.Custom fun arr =>
      if arr.length < min then
        some (.msg ("array length must be at least " ++ toString min))
      else none }

/-- `ArraySchema.Max(max)`: appends a maximum length validator. -/
def Max {T : Type} (s : ArraySchema T) (max : Nat) : ArraySchema T :=
  { s with base := s.base.Custom fun arr =>
      if arr.length > max then
        some (.msg ("array length must be at most " ++ toString max))
      else none }

/-- `ArraySchema.Length(length)`: appends an exact length validator. -/
def Length {T : Type} (s : ArraySchema T) (length : Nat) : ArraySchema T :=
  { s with base := s.base.Custom fun arr =>
      if arr.length ≠ length then
        some (.msg ("array length must be exactly " ++ toString length))
      else none }

/-- `ArraySchema.UniqueItems()`: appends the uniqueness validator. -/
def UniqueItems {T : Type} [GoJSON T] (s : ArraySchema T) : ArraySchema T :=
  { s with base := s.base.Custom (uniqueCheck [] 0) }

/-- `ArraySchema.Custom` (promoted from the embedded `*Schema[[]T]`). -/
def Custom {T : Type} (s : ArraySchema T) (fn : List T → Option VErr) :
    ArraySchema T :=
  { s with base := s.base.Custom fn }

/-- `ArraySchema.Validate`: on a nil slice, runs every validator against
the empty slice and returns the first error; on a non-nil slice, delegates
to the base schema's validator run. -/
def Validate {T : Type} (s : ArraySchema T) (value : Option (List T)) : Option VErr :=
  match value with
  | none => runValidators s.base.validators []
  | some arr => s.base.Validate arr

end ArraySchema

/-- How a Go type `T` sits inside the dynamic `any` world, as
`ObjectSchema` uses it: `fromAny` is the type assertion `value.(T)`
(`none` when the assertion fails), `zero` is `T`'s zero value, and
`asMap` is the assertion `any(value).(map[string]any)` performed by
`ObjectSchema.Validate` (always `none` for a struct type). -/
class GoType (T : Type) : Type where
  fromAny : GoVal → Option T
  zero : T
  asMap : T → Option (List (String × GoVal))

instance : GoType GoVal where
  fromAny := some
  zero := .null
  asMap v := match v with | .map m => some m | _ => none

instance : GoType String where
  fromAny v := match v with | .str s => some s | _ => none
  zero := ""
  asMap _ := none

instance : GoType Int where
  fromAny v := match v with | .int n => some n | _ => none
  zero := 0
  asMap _ := none

instance : GoType Bool where
  fromAny v := match v with | .bool b => some b | _ => none
  asMap _ := none
  zero := false

/-- `ObjectSchema[T]` from `object.go`: the embedded base schema plus the
map from field name to field validator. The Go map is modelled as an
association list in insertion order; `Field`'s stored closure
`func(any) error` is modelled by its captured data `(fieldName,
validateFn)`, applied through `runFieldTyped` / `runFieldAny` below,
which reproduce the closure's body for the two shapes of argument it is
called with (the typed value from `Validate`, a map entry from
`ValidateMap`). -/
structure ObjectSchema (T : Type) : Type where
  base : Schema T
  fieldValidators : List (String × (T → Option VErr))

/-- The wrapping applied inside the closure built by `ObjectSchema.Field`:
a field validator's error is wrapped as
`validation failed for field "<name>": <inner error>` (`%q` quotes the
name); no error stays no error. -/
def wrapField (fieldName : String) : Option VErr → Option VErr
  | some err =>
    some (.wrap ("validation failed for field \"" ++ fieldName ++ "\"") err)
  | none => none

/-- The closure built by `ObjectSchema.Field`, called with the carried
value itself (the loop of `ObjectSchema.Validate`): the type assertion
`value.(T)` recovers the value, so `validateFn` runs on it directly and
its error is wrapped with the field name. -/
def runFieldTyped {T : Type} (fieldName : String) (validateFn : T → Option VErr)
    (value : T) : Option VErr :=
  wrapField fieldName (validateFn value)

/-- The closure built by `ObjectSchema.Field`, called with a map entry of
type `any` (the loop of `ObjectSchema.ValidateMap`): the type assertion
`value.(T)` yields `T`'s zero value when it fails. -/
def runFieldAny {T : Type} [GoType T] (fieldName : String)
    (validateFn : T → Option VErr) (value : GoVal) : Option VErr :=
  runFieldTyped fieldName validateFn ((GoType.fromAny value).getD GoType.zero)

/-- Go map insertion `m[k] = v`: replaces the value of an existing key,
otherwise adds the pair. -/
def insertField {A : Type} : List (String × A) → String → A → List (String × A)
  | [], k, v => [(k, v)]
  | (k', v') :: rest, k, v =>
    if k' = k then (k, v) :: rest else (k', v') :: insertField rest k v

/-- Go map indexing `values[fieldName]` on a `map[string]any`: the zero
value of `any` (nil) when the key is absent. -/
def lookupGoMap (values : List (String × GoVal)) (k : String) : GoVal :=
  (values.lookup k).getD GoVal.null

namespace ObjectSchema

/-- `Object[T]()`: a new object schema with no field validators. -/
def new (T : Type) : ObjectSchema T := ⟨Schema.new T, []⟩

/-- `ObjectSchema.Field(fieldName, validateFn)`: registers (or replaces)
one named field validator, stored as the wrapped closure described above. -/
def Field {T : Type} (s : ObjectSchema T) (fieldName : String)
    (validateFn : T → Option VErr) : ObjectSchema T :=
  { s with fieldValidators := insertField s.fieldValidators fieldName validateFn }

/-- `ObjectSchema.Map(fieldValidators)`: registers many fields at once by
calling `Field` for each pair. -/
def Map {T : Type} (s : ObjectSchema T)
    (fieldValidators : List (String × (T → Option VErr))) : ObjectSchema T :=
  fieldValidators.foldl (fun acc p => acc.Field p.1 p.2) s

/-- `ObjectSchema.Custom` (promoted from the embedded `*Schema[T]`).
Note: `ObjectSchema.Validate` overrides the base `Validate` and runs only
the field validators, so predicates attached this way are never run by it. -/
def Custom {T : Type} (s : ObjectSchema T) (fn : T → Option VErr) :
    ObjectSchema T :=
  { s with base := s.base.Custom fn }

/-- The loop of `ObjectSchema.ValidateMap`: each field validator is
invoked with the map entry looked up by its field name; first error wins. -/
def runMapFields {T : Type} [GoType T] :
    List (String × (T → Option VErr)) → List (String × GoVal) → Option VErr
  | [], _ => none
  | (fieldName, fn) :: rest, values =>
    match runFieldAny fieldName fn (lookupGoMap values fieldName) with
    | some e => some e
    | none => runMapFields rest values

/-- `ObjectSchema.ValidateMap`: validates a map keyed by field name. -/
def ValidateMap {T : Type} [GoType T] (s : ObjectSchema T)
    (values : List (String × GoVal)) : Option VErr :=
  runMapFields s.fieldValidators values

/-- The non-map loop of `ObjectSchema.Validate`: each field validator
receives the whole carried value; first error wins. -/
def runStructFields {T : Type} :
    List (String × (T → Option VErr)) → T → Option VErr
  | [], _ => none
  | (fieldName, fn) :: rest, value =>
    match runFieldTyped fieldName fn value with
    | some e => some e
    | none => runStructFields rest value

/-- `ObjectSchema.Validate`: a value that is dynamically a
`map[string]any` takes the per-key path (`ValidateMap`); any other value
is passed whole to each field validator. -/
def Validate {T : Type} [GoType T] (s : ObjectSchema T) (value : T) : Option VErr :=
  match GoType.asMap value with
  | some mapValue => s.ValidateMap mapValue
  | none => runStructFields s.fieldValidators value

end ObjectSchema

/-- `ValidateField(getter, schema)` from `object.go`: builds a field
validator from a getter and a sub-schema's `Validate`. -/
def ValidateField {T F : Type} (getter : T → F) (schema : F → Option VErr) :
    T → Option VErr :=
  fun value => schema (getter value)

/-!
The JSON-Schema adapter (`valtorjsonschema`, `jsonschema.go`). The Go
code is generic in `T`; every recursive call instantiates it at `any`,
and the embedding fixes `T = GoVal` throughout. `regexp.Compile` and
`json.Number.Float64` are external collaborators, modelled as the
capabilities an `AdapterEnv` provides; `float64` is modelled as an exact
rational (no claim exercises rounding), and the `int64`-range overflow
checks of the integer coercion branch have no counterpart because the
embedding's integers are unbounded.
-/

mutual
/-- `json.Marshal` of an `any` value, as the uniqueness check uses it:
a deterministic serialization. (Go escapes strings and sorts map keys;
the embedding serializes strings unescaped and map entries in stored
order — no claim depends on either.) -/
def goMarshal : GoVal → Option String
  | .null => some "null"
  | .bool b => some (cond b "true" "false")
  | .int n => some (toString n)
  | .float q => some (toString q)
  | .str s => some ("\"" ++ s ++ "\"")
  | .arr xs =>
    match goMarshalList xs with
    | none => none
    | some parts => some ("[" ++ String.intercalate "," parts ++ "]")
  | .map m =>
    match goMarshalPairs m with
    | none => none
    | some parts => some ("\x7b" ++ String.intercalate "," parts ++ "\x7d")

/-- Serializes the elements of a JSON array; `none` if any element fails. -/
def goMarshalList : List GoVal → Option (List String)
  | [] => some []
  | x :: xs =>
    match goMarshal x, goMarshalList xs with
    | some s, some rest => some (s :: rest)
    | _, _ => none

/-- Serializes the entries of a JSON object; `none` if any entry fails. -/
def goMarshalPairs : List (String × GoVal) → Option (List String)
  | [] => some []
  | (k, v) :: rest =>
    match goMarshal v, goMarshalPairs rest with
    | some s, some tail => some (("\"" ++ k ++ "\":" ++ s) :: tail)
    | _, _ => none
end

instance : GoJSON GoVal := ⟨goMarshal⟩

/-- `jsonschema.Schema` (invopop/jsonschema), restricted to the fields
the adapter reads. Field names follow the Go struct, lowercased;
`Pattern` becomes `patt` (`pattern` is reserved here). `none` models a
nil pointer field, an empty string an absent `json.Number`, and
`properties` keeps the ordered-map's pair order with `none` marking a
property whose value is a nil schema pointer. -/
inductive JSONSchema : Type where
  | mk
    (type : String)
    (items : Option JSONSchema)
    (minLength maxLength : Option Nat)
    (patt : String)
    (minimum maximum : String)
    (minItems maxItems : Option Nat)
    (uniqueItems : Bool)
    (properties : List (String × Option JSONSchema))
    (required : List String)

/-- The declared node type (`schema.Type`). -/
def JSONSchema.type : JSONSchema → String
  | .mk t _ _ _ _ _ _ _ _ _ _ _ => t

/-- The declared pattern (`schema.Pattern`; `""` when absent). -/
def JSONSchema.patt : JSONSchema → String
  | .mk _ _ _ _ p _ _ _ _ _ _ _ => p

/-- The declared minimum (`schema.Minimum`; `""` when absent). -/
def JSONSchema.minimum : JSONSchema → String
  | .mk _ _ _ _ _ mn _ _ _ _ _ _ => mn

/-- The declared maximum (`schema.Maximum`; `""` when absent). -/
def JSONSchema.maximum : JSONSchema → String
  | .mk _ _ _ _ _ _ mx _ _ _ _ _ => mx

/-- The declared items sub-schema (`schema.Items`; `none` when nil). -/
def JSONSchema.items : JSONSchema → Option JSONSchema
  | .mk _ it _ _ _ _ _ _ _ _ _ _ => it

/-- The declared properties (`schema.Properties`). -/
def JSONSchema.properties : JSONSchema → List (String × Option JSONSchema)
  | .mk _ _ _ _ _ _ _ _ _ _ ps _ => ps

/-- The external capabilities the adapter consumes: `regexp.Compile`
(an error or a compiled matcher) and `json.Number.Float64` (an error or
the parsed number). -/
structure AdapterEnv : Type where
  compile : String → Except VErr GoRegexp
  parseNumber : String → Except VErr Rat

/-- The recognized values of a node's `type` (the non-default cases of
the adapter's switch). -/
def recognizedTypes : List String :=
  ["null", "boolean", "array", "string", "integer", "number", "object"]

/-- `ErrInvalidType = errors.New("invalid type")`. -/
def errInvalidType : VErr := .msg "invalid type"

/-- The `null` case of the adapter switch: wrap a fresh `Null` schema
behind a dynamic-typed custom predicate. -/
def parseNullCase : Option (Schema GoVal) × Option VErr :=
  let nullSchema := NullSchema.new
  (some ((Schema.new GoVal).Custom fun value => nullSchema.Validate value),
    none)

/-- The `boolean` case of the adapter switch: a fresh `Bool` schema behind
a type-switching predicate (nil is accepted unless required). -/
def parseBooleanCase (required : Bool) : Option (Schema GoVal) × Option VErr :=
  let boolSchema := BoolSchema.new
  (some ((Schema.new GoVal).Custom fun value =>
    match value with
    | .bool v => boolSchema.Validate v
    | .null => if required then some .required else none
    | v => some (.msg ("expected boolean value, got " ++ v.typeName))),
    none)

/-- The array-schema builder chain of the adapter's `array` case:
`Items` (when an item validator was built), then `Min`, `Max`,
`UniqueItems` for the declared constraints. -/
def buildAdapterArray (itemValidator : Option (GoVal → Option VErr))
    (minItems maxItems : Option Nat) (uniqueItems : Bool) : ArraySchema GoVal :=
  let a0 := match itemValidator with
    | some iv => (ArraySchema.new GoVal).Items iv
    | none => ArraySchema.new GoVal
  let a1 := match minItems with | some n => a0.Min n | none => a0
  let a2 := match maxItems with | some n => a1.Max n | none => a1
  if uniqueItems then a2.UniqueItems else a2

/-- The returned schema of the adapter's `array` case: the built array
schema behind a type-switching predicate; nil is rejected with the
required sentinel only when required and a positive `minItems` is
declared. -/
def adapterArrayResult (arrSchema : ArraySchema GoVal) (required : Bool)
    (minItems : Option Nat) : Schema GoVal :=
  (Schema.new GoVal).Custom fun value =>
    match value with
    | .arr v => arrSchema.Validate (some v)
    | .null =>
      if required ∧ (match minItems with
          | some n => decide (0 < n) | none => false) = true then
        some .required
      else none
    | v => some (.msg ("expected array value, got " ++ v.typeName))

/-- The `string` case of the adapter switch: `Min`/`Max` for declared
lengths, pattern compilation (aborting on a compile error), `Required()`
when the property is required, the whole behind a type-switching
predicate that validates nil as the empty string. -/
def parseStringCase (env : AdapterEnv) (minLength maxLength : Option Nat)
    (patt : String) (required : Bool) : Option (Schema GoVal) × Option VErr :=
  let s0 := StringSchema.new
  let s1 := match minLength with | some n => s0.Min n | none => s0
  let s2 := match maxLength with | some n => s1.Max n | none => s1
  let compiled : Except VErr StringSchema :=
    if patt ≠ "" then
      match env.compile patt with
      | .error err =>
        .error (.wrap ("invalid pattern \"" ++ patt ++ "\"") err)
      | .ok re => .ok (s2.Regexp re)
    else .ok s2
  match compiled with
  | .error err => (none, some err)
  | .ok s3 =>
    let s4 := if required then s3.Required else s3
    (some ((Schema.new GoVal).Custom fun value =>
      match value with
      | .str v => s4.Validate v
      | .null => s4.Validate ""
      | v => some (.msg ("expected string value, got " ++ v.typeName))),
      none)

/-- The `integer` case of the adapter switch: bounds parsed as numbers
(aborting with an unwrapped message when unparseable) and rounded with
ceiling/floor to `int64`, `Required()` when required, behind a
type-switching predicate that rejects fractional floats and validates
nil as 0. The Go `int64`-range overflow checks have no counterpart here
(unbounded integers). -/
def parseIntegerCase (env : AdapterEnv) (minimum maximum : String)
    (required : Bool) : Option (Schema GoVal) × Option VErr :=
  let n0 := NumberSchema.new Int
  let withMin : Except VErr (NumberSchema Int) :=
    if minimum ≠ "" then
      match env.parseNumber minimum with
      | .error _ =>
        .error (.msg ("invalid `minimum` value \"" ++ minimum ++ "\""))
      | .ok minFloat => .ok (n0.Min (Int.ceil minFloat))
    else .ok n0
  match withMin with
  | .error err => (none, some err)
  | .ok n1 =>
    let withMax : Except VErr (NumberSchema Int) :=
      if maximum ≠ "" then
        match env.parseNumber maximum with
        | .error _ =>
          .error (.msg ("invalid `maximum` value \"" ++ maximum ++ "\""))
        | .ok maxFloat => .ok (n1.Max (Int.floor maxFloat))
      else .ok n1
    match withMax with
    | .error err => (none, some err)
    | .ok n2 =>
      let n3 := if required then n2.Required else n2
      (some ((Schema.new GoVal).Custom fun value =>
        match value with
        | .int v => n3.Validate v
        | .float q =>
          if q.den ≠ 1 then
            some (.msg ("expected integer value, got float with fractional part: "
              ++ toString q))
          else n3.Validate q.num
        | .null => n3.Validate 0
        | v => some (.msg ("expected integer value, got " ++ v.typeName))),
        none)

/-- The `number` case of the adapter switch: bounds parsed as numbers
(aborting with a wrapped error when unparseable), `Required()` when
required, behind a type-switching predicate that widens integers and
validates nil as 0. -/
def parseNumberCase (env : AdapterEnv) (minimum maximum : String)
    (required : Bool) : Option (Schema GoVal) × Option VErr :=
  let n0 := NumberSchema.new Rat
  let withMin : Except VErr (NumberSchema Rat) :=
    if minimum ≠ "" then
      match env.parseNumber minimum with
      | .error err =>
        .error (.wrap ("invalid `minimum` \"" ++ minimum ++ "\"") err)
      | .ok minFloat => .ok (n0.Min minFloat)
    else .ok n0
  match withMin with
  | .error err => (none, some err)
  | .ok n1 =>
    let withMax : Except VErr (NumberSchema Rat) :=
      if maximum ≠ "" then
        match env.parseNumber maximum with
        | .error err =>
          .error (.wrap ("invalid `maximum` \"" ++ maximum ++ "\"") err)
        | .ok maxFloat => .ok (n1.Max maxFloat)
      else .ok n1
    match withMax with
    | .error err => (none, some err)
    | .ok n2 =>
      let n3 := if required then n2.Required else n2
      (some ((Schema.new GoVal).Custom fun value =>
        match value with
        | .float q => n3.Validate q
        | .int v => n3.Validate (v : Rat)
        | .null => n3.Validate 0
        | v => some (.msg ("expected numeric value, got " ++ v.typeName))),
        none)

mutual
/-- `parseJSONSchema` from `jsonschema.go`: translates one node of the
declarative tree into a `valtor` schema, Go-style as a
(schema-or-nil, error-or-nil) pair. The switch on the node type is the
if-chain; each case's body is the correspondingly named definition
above, and only the `array` and `object` cases recurse.
`(itemSchema?.getD (Schema.new GoVal))` appears where Go would
dereference a schema received alongside a nil error — the function
never actually returns `(none, none)`, so the default is never
consulted. -/
def parseJSONSchema (env : AdapterEnv) (schema : JSONSchema) (required : Bool) :
    Option (Schema GoVal) × Option VErr :=
  match schema with
  | .mk t items minLength maxLength patt minimum maximum minItems maxItems
      uniqueItems properties requiredNames =>
    if t = "null" then parseNullCase
    else if t = "boolean" then parseBooleanCase required
    else if t = "array" then
      match items with
      | none =>
        (some (adapterArrayResult
          (buildAdapterArray none minItems maxItems uniqueItems)
          required minItems), none)
      | some itemsSchema =>
        match parseJSONSchema env itemsSchema false with
        | (_, some err) => (none, some (.wrap "invalid item schema" err))
        | (itemSchema?, none) =>
          (some (adapterArrayResult
            (buildAdapterArray
              (some ((itemSchema?.getD (Schema.new GoVal)).Validate))
              minItems maxItems uniqueItems)
            required minItems), none)
    else if t = "string" then parseStringCase env minLength maxLength patt required
    else if t = "integer" then parseIntegerCase env minimum maximum required
    else if t = "number" then parseNumberCase env minimum maximum required
    else if t = "object" then
      match parseProps env properties requiredNames (ObjectSchema.new GoVal) with
      | .error err => (none, some err)
      | .ok objSchema =>
        (some ((Schema.new GoVal).Custom fun value => objSchema.Validate value),
          none)
    else (none, some errInvalidType)

/-- The properties loop of the adapter's `object` case: skips a property
with a nil sub-schema, parses each declared sub-schema with its
required flag (`slices.Contains(schema.Required, pair.Key)`), registers
it with `Field`, and aborts on the first failing property with the
error wrapped as `invalid schema for property "<key>"`. -/
def parseProps (env : AdapterEnv) (properties : List (String × Option JSONSchema))
    (requiredNames : List String) (objSchema : ObjectSchema GoVal) :
    Except VErr (ObjectSchema GoVal) :=
  match properties with
  | [] => .ok objSchema
  | (_, none) :: rest => parseProps env rest requiredNames objSchema
  | (key, some sub) :: rest =>
    let fieldRequired := requiredNames.contains key
    match parseJSONSchema env sub fieldRequired with
    | (_, some err) =>
      .error (.wrap ("invalid schema for property \"" ++ key ++ "\"") err)
    | (fieldSchema?, none) =>
      parseProps env rest requiredNames
        (objSchema.Field key ((fieldSchema?.getD (Schema.new GoVal)).Validate))
end

/-- `ParseJSONSchema` from `jsonschema.go`: the exported entry point,
starting the recursion with `required = false`. -/
def ParseJSONSchema (env : AdapterEnv) (schema : JSONSchema) :
    Option (Schema GoVal) × Option VErr :=
  parseJSONSchema env schema false

/-- A two-level pair of Go structs used to exhibit C2's nested wrapping:
an outer struct holding an inner struct holding a string. Neither is
dynamically a `map[string]any`, and the dynamic values `GoVal` carries
cannot type-assert to them, so `asMap` and `fromAny` are constantly
`none`. -/
structure InnerObj : Type where
  iname : String

structure OuterObj : Type where
  inner : InnerObj

instance : GoType InnerObj := ⟨fun _ => none, ⟨""⟩, fun _ => none⟩

instance : GoType OuterObj := ⟨fun _ => none, ⟨⟨""⟩⟩, fun _ => none⟩

/-- An object schema for `InnerObj` whose field "name" requires at least
3 bytes. -/
def innerObjSchema : ObjectSchema InnerObj :=
  (ObjectSchema.new InnerObj).Field "name"
    (ValidateField (fun u => u.iname) (StringSchema.new.Min 3).Validate)

/-- An object schema for `OuterObj` whose field "inner" delegates to
`innerObjSchema` — the nested-object composition of C2. -/
def outerObjSchema : ObjectSchema OuterObj :=
  (ObjectSchema.new OuterObj).Field "inner"
    (ValidateField (fun o => o.inner) innerObjSchema.Validate)

/-- A leaf schema node with only a type declared (every other field
absent), used in concrete adapter inputs. -/
def jsNode (t : String) : JSONSchema :=
  .mk t none none none "" "" "" none none false [] []

/-- An environment whose external capabilities always fail: every pattern
fails to compile and every numeric bound fails to parse. -/
def adapterEnvFail : AdapterEnv :=
  ⟨fun _ => .error (.msg "bad re"), fun _ => .error (.msg "bad num")⟩

/-! Helper lemmas about the validator-run loops. -/

/-- The run of a validator list is the first `some` any of its functions
returns, in list order. -/
theorem runValidators_eq_findSome {T : Type} (l : List (T → Option VErr)) (v : T) :
    runValidators l v = l.findSome? (fun f => f v) := by
  induction l with
  | nil => rfl
  | cons f fs ih =>
    simp only [runValidators, List.findSome?]
    cases f v <;> simp [ih]

/-- If no function of the list ever returns the error `e`, the run never
returns `e`. -/
theorem runValidators_ne {T : Type} (l : List (T → Option VErr)) (v : T) (e : VErr)
    (h : ∀ f ∈ l, ∀ w, f w ≠ some e) : runValidators l v ≠ some e := by
  induction l with
  | nil => simp [runValidators]
  | cons f fs ih =>
    simp only [runValidators]
    cases hf : f v with
    | some e' =>
      intro hcontra
      exact h f (by simp) v (by simp [hf, ← Option.some_inj.mp hcontra])
    | none => exact ih (fun g hg => h g (by simp [hg]))

/-! The claims. -/

/-- C1: for every base `Schema` and every value, `Validate` runs the
attached validator functions in attachment order and returns the error of
the first one that fails (`findSome?` over the list), skipping all later
ones; if every validator returns no error the result is `none`; and
`Custom` (like every constraint builder) attaches by appending to the
list. -/
theorem claim1_validate_first_error {T : Type} (s : Schema T) (value : T)
    (fn : T → Option VErr) :
    s.Validate value = s.validators.findSome? (fun f => f value) ∧
    ((∀ f ∈ s.validators, f value = none) → s.Validate value = none) ∧
    (s.Custom fn).validators = s.validators ++ [fn] := by
  refine ⟨runValidators_eq_findSome _ _, fun h => ?_, rfl⟩
  rw [Schema.Validate, runValidators_eq_findSome]
  exact List.findSome?_eq_none_iff.mpr h

/-- Witness for C1 at a concrete two-validator schema and value. -/
theorem claim1_witness :
    (((Schema.new Nat).Custom fun n =>
        if n < 2 then some (.msg "too small") else none).Validate 5
      = (((Schema.new Nat).Custom fun n =>
        if n < 2 then some (.msg "too small") else none).validators.findSome?
          (fun f => f 5))) ∧
    ((∀ f ∈ ((Schema.new Nat).Custom fun n =>
        if n < 2 then some (.msg "too small") else none).validators, f 5 = none) →
      ((Schema.new Nat).Custom fun n =>
        if n < 2 then some (.msg "too small") else none).Validate 5 = none) :=
  ⟨(claim1_validate_first_error _ 5 (fun _ => none)).1,
   (claim1_validate_first_error _ 5 (fun _ => none)).2.1⟩

/-- C9: for every schema kind with no predicates attached, `Validate` on
any value of the schema's matching type returns no error (for `Null` the
matching type's only value is the nil `any`). -/
theorem claim9_predicate_free_valid :
    (∀ (T : Type) (v : T), (Schema.new T).Validate v = none) ∧
    (∀ v, StringSchema.new.Validate v = none) ∧
    (∀ (T : Type) (_ : LinearOrder T) (_ : Zero T) (v : T),
      (NumberSchema.new T).Validate v = none) ∧
    (∀ v, BoolSchema.new.Validate v = none) ∧
    (NullSchema.new.Validate GoVal.null = none) ∧
    (∀ (T : Type) (v : Option T), (PointerSchema.new T).Validate v = none) ∧
    (∀ (T : Type) (v : Option (List T)), (ArraySchema.new T).Validate v = none) ∧
    (∀ (T : Type) (inst : GoType T) (v : T), (ObjectSchema.new T).Validate v = none) := by
  refine ⟨fun T v => rfl, fun v => ?_, fun T instO instZ v => ?_, fun v => rfl,
    rfl, fun T v => ?_, fun T v => ?_, fun T inst v => ?_⟩
  · simp [StringSchema.Validate, StringSchema.new, Schema.Validate, Schema.new,
      runValidators]
  · simp [NumberSchema.Validate, NumberSchema.new, Schema.Validate, Schema.new,
      runValidators]
  · simp [PointerSchema.Validate, PointerSchema.new, Schema.Validate, Schema.new,
      runValidators]
  · cases v <;> rfl
  · rw [ObjectSchema.Validate]
    cases GoType.asMap v <;> rfl

/-- C3: for every `String` schema, after `Required()` the validation of
`""` returns the required sentinel whatever validators are attached
(so none of them runs), and the validation of a non-empty string skips the
required-check and delegates to the attached validator run, which cannot
produce the sentinel unless an attached validator itself returns it. -/
theorem claim3_string_required_empty (s : StringSchema) (v : String)
    (hv : v ≠ "") :
    s.Required.Validate "" = some .required ∧
    s.Required.Validate v = s.base.Validate v ∧
    ((∀ f ∈ s.base.validators, ∀ w, f w ≠ some VErr.required) →
      s.Required.Validate v ≠ some VErr.required) := by
  refine ⟨by simp [StringSchema.Validate, StringSchema.Required], ?_, fun h => ?_⟩
  · simp [StringSchema.Validate, StringSchema.Required, hv]
  · rw [StringSchema.Validate, if_neg (by simp [hv])]
    exact runValidators_ne _ _ _ h

/-- Witness for C3 at `String().Min(3).Required()` and the value "hi". -/
theorem claim3_witness :
    ("hi" : String) ≠ "" ∧
    (StringSchema.new.Min 3).Required.Validate "" = some .required ∧
    (StringSchema.new.Min 3).Required.Validate "hi"
      = (StringSchema.new.Min 3).base.Validate "hi" ∧
    (StringSchema.new.Min 3).Required.Validate "hi" ≠ some VErr.required := by
  have h := claim3_string_required_empty (StringSchema.new.Min 3) "hi" (by decide)
  refine ⟨by decide, h.1, h.2.1, h.2.2 ?_⟩
  intro f hf w
  simp [StringSchema.Min, StringSchema.new, Schema.new, Schema.Custom] at hf
  subst hf
  dsimp only
  split <;> simp

/-- C4: for every `Number` schema, after `Required()` the validation of the
representation's zero value returns the required sentinel whatever
validators are attached (so none of them runs), and the validation of a
non-zero value skips the required-check and delegates to the attached
validator run, which cannot produce the sentinel unless an attached
validator itself returns it. -/
theorem claim4_number_required_zero {T : Type} [LinearOrder T] [Zero T]
    (s : NumberSchema T) (v : T) (hv : v ≠ 0) :
    s.Required.Validate 0 = some .required ∧
    s.Required.Validate v = s.base.Validate v ∧
    ((∀ f ∈ s.base.validators, ∀ w, f w ≠ some VErr.required) →
      s.Required.Validate v ≠ some VErr.required) := by
  refine ⟨by simp [NumberSchema.Validate, NumberSchema.Required], ?_, fun h => ?_⟩
  · simp [NumberSchema.Validate, NumberSchema.Required, hv]
  · rw [NumberSchema.Validate, if_neg (by simp [hv])]
    exact runValidators_ne _ _ _ h

/-- Witness for C4 at `Number[int]().Min(18).Required()` and the value 25. -/
theorem claim4_witness :
    (25 : Int) ≠ 0 ∧
    ((NumberSchema.new Int).Min 18).Required.Validate 0 = some .required ∧
    ((NumberSchema.new Int).Min 18).Required.Validate 25
      = ((NumberSchema.new Int).Min 18).base.Validate 25 ∧
    ((NumberSchema.new Int).Min 18).Required.Validate 25 ≠ some VErr.required := by
  have h := claim4_number_required_zero ((NumberSchema.new Int).Min 18) 25 (by decide)
  refine ⟨by decide, h.1, h.2.1, h.2.2 ?_⟩
  intro f hf w
  simp [NumberSchema.Min, NumberSchema.new, Schema.new, Schema.Custom] at hf
  subst hf
  dsimp only
  split <;> simp

/-- Computation of `Number[int64]().Min(a).Max(b).Validate(v)`: the min
check runs first, then the max check. -/
theorem minMaxValidate (a b v : Int) :
    (((NumberSchema.new Int).Min a).Max b).Validate v
      = if v < a then some (.msg ("value must be at least " ++ toString a))
        else if b < v then some (.msg ("value must be at most " ++ toString b))
        else none := by
  by_cases h1 : v < a <;> by_cases h2 : b < v <;>
    simp [NumberSchema.Validate, NumberSchema.Max, NumberSchema.Min,
      NumberSchema.new, Schema.new, Schema.Custom, Schema.Validate,
      runValidators, h1, h2, gt_iff_lt]

/-- C5: for `Number[int64]().Min(a).Max(b)` with a ≤ b and no `Required()`,
validation succeeds exactly on a ≤ v ≤ b, `a - 1` fails naming the
minimum bound and `b + 1` fails naming the maximum bound. -/
theorem claim5_number_min_max (a b v : Int) (hab : a ≤ b) :
    ((((NumberSchema.new Int).Min a).Max b).Validate v = none ↔ a ≤ v ∧ v ≤ b) ∧
    (((NumberSchema.new Int).Min a).Max b).Validate (a - 1)
      = some (.msg ("value must be at least " ++ toString a)) ∧
    (((NumberSchema.new Int).Min a).Max b).Validate (b + 1)
      = some (.msg ("value must be at most " ++ toString b)) := by
  refine ⟨?_, ?_, ?_⟩
  · rw [minMaxValidate]
    split_ifs with h1 h2 <;> simp <;> omega
  · rw [minMaxValidate, if_pos (by omega)]
  · rw [minMaxValidate, if_neg (by omega), if_pos (by omega)]

/-- Witness for C5 at a = 2, b = 5, v = 3. -/
theorem claim5_witness :
    (2 : Int) ≤ 5 ∧
    (((((NumberSchema.new Int).Min 2).Max 5).Validate 3 = none ↔
        (2 : Int) ≤ 3 ∧ (3 : Int) ≤ 5) ∧
      ((((NumberSchema.new Int).Min 2).Max 5).Validate (2 - 1)
        = some (.msg ("value must be at least " ++ toString (2 : Int)))) ∧
      ((((NumberSchema.new Int).Min 2).Max 5).Validate (5 + 1)
        = some (.msg ("value must be at most " ++ toString (5 : Int))))) :=
  ⟨by decide, claim5_number_min_max 2 5 3 (by decide)⟩

/-- C6: for every `Array` schema, whatever predicates are attached,
validating the nil slice gives the same result as validating the empty
slice; in particular `Min(1)` fails on nil with the array-length
violation, while a combination with no positive length floor
(`Max(5)`, `UniqueItems()`, `Items(...)`) accepts nil. -/
theorem claim6_array_nil_empty {T : Type} (s : ArraySchema T) :
    s.Validate none = s.Validate (some []) ∧
    ((ArraySchema.new T).Min 1).Validate none
      = some (.msg "array length must be at least 1") ∧
    ((((ArraySchema.new String).Max 5).UniqueItems).Items
        (StringSchema.new.Min 1).Validate).Validate none = none := by
  exact ⟨rfl, rfl, rfl⟩

/-- C7: `Ptr(String().Min(3))` fails on a pointer to "hi" with the length
message, accepts the nil pointer, and with `Required()` layered on top
rejects the nil pointer with the required sentinel. -/
theorem claim7_ptr_optional :
    (Ptr (StringSchema.new.Min 3).Validate).Validate (some "hi")
      = some (.msg "length must be at least 3") ∧
    (Ptr (StringSchema.new.Min 3).Validate).Validate none = none ∧
    (Ptr (StringSchema.new.Min 3).Validate).Required.Validate none
      = some .required := by
  refine ⟨by decide, by decide, by decide⟩

/-- Append/cons law for the non-map field loop: if every field before
`(name, fn)` passes and `fn` fails with `e`, the loop stops at that field
and returns its wrapped error, whatever comes after. -/
theorem runStructFields_first_failure {T : Type}
    (pre post : List (String × (T → Option VErr)))
    (name : String) (fn : T → Option VErr) (value : T) (e : VErr)
    (hpre : ∀ p ∈ pre, p.2 value = none) (hfail : fn value = some e) :
    ObjectSchema.runStructFields (pre ++ (name, fn) :: post) value
      = some (.wrap ("validation failed for field \"" ++ name ++ "\"") e) := by
  induction pre with
  | nil =>
    simp only [List.nil_append, ObjectSchema.runStructFields, runFieldTyped,
      hfail, wrapField]
  | cons p ps ih =>
    obtain ⟨n', f'⟩ := p
    have hf' : f' value = none := hpre (n', f') (by simp)
    simp only [List.cons_append, ObjectSchema.runStructFields, runFieldTyped,
      hf', wrapField]
    exact ih (fun q hq => hpre q (by simp [hq]))

/-- C2: for every `Object` schema over a non-map carried value, when the
value fails exactly one field's validator, `Validate` returns that
field's inner error wrapped once as
`validation failed for field "<name>": <inner error>`, wherever that
field sits among the others; and nested `Object` schemas wrap once per
level, as the concrete two-level example shows (both field names appear,
one wrap each). -/
theorem claim2_object_single_field_wrap {T : Type} [GoType T]
    (s : ObjectSchema T) (pre post : List (String × (T → Option VErr)))
    (name : String) (fn : T → Option VErr) (value : T) (e : VErr)
    (hfields : s.fieldValidators = pre ++ (name, fn) :: post)
    (hmap : GoType.asMap value = none)
    (hfail : fn value = some e)
    (hpre : ∀ p ∈ pre, p.2 value = none)
    (hpost : ∀ p ∈ post, p.2 value = none) :
    s.Validate value
      = some (.wrap ("validation failed for field \"" ++ name ++ "\"") e) ∧
    outerObjSchema.Validate ⟨⟨"hi"⟩⟩
      = some (.wrap "validation failed for field \"inner\""
          (.wrap "validation failed for field \"name\""
            (.msg "length must be at least 3"))) := by
  refine ⟨?_, by decide⟩
  rw [ObjectSchema.Validate, hmap, hfields]
  exact runStructFields_first_failure pre post name fn value e hpre hfail

/-- Witness for C2: a three-field schema over dynamic values where only
the middle field "b" fails. -/
theorem claim2_witness :
    GoType.asMap (GoVal.str "v") = none ∧
    (fun (_ : GoVal) => some (VErr.msg "boom")) (GoVal.str "v")
      = some (VErr.msg "boom") ∧
    ((((ObjectSchema.new GoVal).Field "a" (fun _ => none)).Field "b"
        (fun _ => some (VErr.msg "boom"))).Field "c" (fun _ => none)).Validate
        (GoVal.str "v")
      = some (.wrap "validation failed for field \"b\"" (.msg "boom")) := by
  refine ⟨rfl, rfl, ?_⟩
  exact (claim2_object_single_field_wrap
    ((((ObjectSchema.new GoVal).Field "a" (fun _ => none)).Field "b"
        (fun _ => some (VErr.msg "boom"))).Field "c" (fun _ => none))
    [("a", fun _ => none)] [("c", fun _ => none)]
    "b" (fun _ => some (VErr.msg "boom")) (GoVal.str "v") (VErr.msg "boom")
    rfl rfl rfl
    (by intro p hp; simp only [List.mem_singleton] at hp; subst hp; rfl)
    (by intro p hp; simp only [List.mem_singleton] at hp; subst hp; rfl)).1

/-- The per-key loop returns the first failing field validator's result
over the stored field list, each invoked on the entry looked up by its
own field name. -/
theorem runMapFields_eq_findSome {T : Type} [GoType T]
    (fields : List (String × (T → Option VErr))) (m : List (String × GoVal)) :
    ObjectSchema.runMapFields fields m
      = fields.findSome? (fun p => runFieldAny p.1 p.2 (lookupGoMap m p.1)) := by
  induction fields with
  | nil => rfl
  | cons p ps ih =>
    obtain ⟨n, f⟩ := p
    simp only [ObjectSchema.runMapFields, List.findSome?]
    cases runFieldAny n f (lookupGoMap m n) <;> simp [ih]

/-- C10: when the carried value is dynamically a `map[string]any`,
validation takes the per-key path: each registered field validator is
invoked on the map entry looked up by its field name, type-asserted to
`T` with `T`'s zero value silently substituted when the assertion fails,
and an absent key yields the nil `any` (hence the zero value). -/
theorem claim10_object_map_path {T : Type} [GoType T]
    (s : ObjectSchema T) (value : T) (m : List (String × GoVal))
    (hmap : GoType.asMap value = some m) :
    s.Validate value = s.ValidateMap m ∧
    s.ValidateMap m
      = s.fieldValidators.findSome?
          (fun p => runFieldAny p.1 p.2 (lookupGoMap m p.1)) ∧
    (∀ (name : String) (fn : T → Option VErr) (g : GoVal),
      runFieldAny name fn g
        = wrapField name (fn ((GoType.fromAny g).getD GoType.zero))) ∧
    (∀ (name : String) (fn : T → Option VErr) (g : GoVal),
      @GoType.fromAny T _ g = none →
        runFieldAny name fn g = wrapField name (fn GoType.zero)) ∧
    (∀ name, lookupGoMap m name = (m.lookup name).getD GoVal.null) := by
  refine ⟨?_, runMapFields_eq_findSome _ _, fun name fn g => rfl,
    fun name fn g hg => ?_, fun name => rfl⟩
  · rw [ObjectSchema.Validate, hmap]
  · rw [runFieldAny, hg]
    rfl

/-- Witness for C10: a one-field schema over dynamic values applied to a
dynamic map. -/
theorem claim10_witness :
    GoType.asMap (GoVal.map [("a", GoVal.int 1)]) = some [("a", GoVal.int 1)] ∧
    ((ObjectSchema.new GoVal).Field "a" NullSchema.new.Validate).Validate
        (GoVal.map [("a", GoVal.int 1)])
      = ((ObjectSchema.new GoVal).Field "a" NullSchema.new.Validate).ValidateMap
          [("a", GoVal.int 1)] :=
  ⟨rfl, (claim10_object_map_path
    ((ObjectSchema.new GoVal).Field "a" NullSchema.new.Validate)
    (GoVal.map [("a", GoVal.int 1)]) [("a", GoVal.int 1)] rfl).1⟩

/-- Translating a node whose type is empty or unrecognized fails with the
`invalid type` sentinel and returns no schema. -/
theorem parse_invalid_type (env : AdapterEnv) (schema : JSONSchema)
    (required : Bool) (h : schema.type ∉ recognizedTypes) :
    parseJSONSchema env schema required = (none, some errInvalidType) := by
  obtain ⟨t, items, minL, maxL, patt, mn, mx, minIt, maxIt, uniq, props, req⟩ := schema
  simp only [JSONSchema.type, recognizedTypes, List.mem_cons,
    List.not_mem_nil, or_false, not_or] at h
  obtain ⟨h1, h2, h3, h4, h5, h6, h7⟩ := h
  rw [parseJSONSchema.eq_def]
  dsimp only
  rw [if_neg h1, if_neg h2, if_neg h3, if_neg h4, if_neg h5, if_neg h6,
    if_neg h7]

/-- Dispatch: a `string` node translates through the `string` case. -/
theorem parse_mk_string (env : AdapterEnv) (req : Bool)
    (items : Option JSONSchema) (minL maxL : Option Nat) (patt mn mx : String)
    (minIt maxIt : Option Nat) (uniq : Bool)
    (props : List (String × Option JSONSchema)) (reqn : List String) :
    parseJSONSchema env
        (.mk "string" items minL maxL patt mn mx minIt maxIt uniq props reqn) req
      = parseStringCase env minL maxL patt req := by
  rw [parseJSONSchema.eq_def]
  dsimp only
  simp only [String.reduceEq, reduceIte]

/-- Dispatch: an `integer` node translates through the `integer` case. -/
theorem parse_mk_integer (env : AdapterEnv) (req : Bool)
    (items : Option JSONSchema) (minL maxL : Option Nat) (patt mn mx : String)
    (minIt maxIt : Option Nat) (uniq : Bool)
    (props : List (String × Option JSONSchema)) (reqn : List String) :
    parseJSONSchema env
        (.mk "integer" items minL maxL patt mn mx minIt maxIt uniq props reqn) req
      = parseIntegerCase env mn mx req := by
  rw [parseJSONSchema.eq_def]
  dsimp only
  simp only [String.reduceEq, reduceIte]

/-- Dispatch: a `number` node translates through the `number` case. -/
theorem parse_mk_number (env : AdapterEnv) (req : Bool)
    (items : Option JSONSchema) (minL maxL : Option Nat) (patt mn mx : String)
    (minIt maxIt : Option Nat) (uniq : Bool)
    (props : List (String × Option JSONSchema)) (reqn : List String) :
    parseJSONSchema env
        (.mk "number" items minL maxL patt mn mx minIt maxIt uniq props reqn) req
      = parseNumberCase env mn mx req := by
  rw [parseJSONSchema.eq_def]
  dsimp only
  simp only [String.reduceEq, reduceIte]

/-- A declared pattern that fails to compile aborts the `string` case
with the wrapped compile error and no schema. -/
theorem parseStringCase_pattern_error (env : AdapterEnv)
    (minL maxL : Option Nat) (patt : String) (req : Bool) (err : VErr)
    (hp : patt ≠ "") (hc : env.compile patt = .error err) :
    parseStringCase env minL maxL patt req
      = (none, some (.wrap ("invalid pattern \"" ++ patt ++ "\"") err)) := by
  simp [parseStringCase, hp, hc]

/-- An unparseable declared minimum aborts the `integer` case with the
bounds-parsing error and no schema. -/
theorem parseIntegerCase_min_error (env : AdapterEnv) (mn mx : String)
    (req : Bool) (err : VErr)
    (hmn : mn ≠ "") (hc : env.parseNumber mn = .error err) :
    parseIntegerCase env mn mx req
      = (none, some (.msg ("invalid `minimum` value \"" ++ mn ++ "\""))) := by
  simp [parseIntegerCase, hmn, hc]

/-- An unparseable declared maximum aborts the `integer` case with the
bounds-parsing error and no schema (minimum absent). -/
theorem parseIntegerCase_max_error (env : AdapterEnv) (mx : String)
    (req : Bool) (err : VErr)
    (hmx : mx ≠ "") (hc : env.parseNumber mx = .error err) :
    parseIntegerCase env "" mx req
      = (none, some (.msg ("invalid `maximum` value \"" ++ mx ++ "\""))) := by
  simp [parseIntegerCase, hmx, hc]

/-- An unparseable declared minimum aborts the `number` case with the
wrapped bounds-parsing error and no schema. -/
theorem parseNumberCase_min_error (env : AdapterEnv) (mn mx : String)
    (req : Bool) (err : VErr)
    (hmn : mn ≠ "") (hc : env.parseNumber mn = .error err) :
    parseNumberCase env mn mx req
      = (none, some (.wrap ("invalid `minimum` \"" ++ mn ++ "\"") err)) := by
  simp [parseNumberCase, hmn, hc]

/-- A failing items sub-schema aborts the `array` case: the error comes
back wrapped as `invalid item schema` and no schema is returned. -/
theorem parse_items_error (env : AdapterEnv) (req : Bool) (sub : JSONSchema)
    (minL maxL : Option Nat) (patt mn mx : String) (minIt maxIt : Option Nat)
    (uniq : Bool) (props : List (String × Option JSONSchema)) (reqn : List String)
    (err : VErr)
    (hsub : (parseJSONSchema env sub false).2 = some err) :
    parseJSONSchema env
        (.mk "array" (some sub) minL maxL patt mn mx minIt maxIt uniq props reqn)
        req
      = (none, some (.wrap "invalid item schema" err)) := by
  rw [parseJSONSchema.eq_def]
  dsimp only
  simp only [String.reduceEq, reduceIte]
  rcases hps : parseJSONSchema env sub false with ⟨s1, e1⟩
  rw [hps] at hsub
  simp only at hsub
  subst hsub
  rfl

/-- A failing declared property aborts the `object` case: the error comes
back wrapped as `invalid schema for property "<key>"` (the property is
parsed with its membership in the parent's required-name list) and no
schema is returned. -/
theorem parse_property_error (env : AdapterEnv) (req : Bool) (key : String)
    (sub : JSONSchema) (rest : List (String × Option JSONSchema))
    (items : Option JSONSchema) (minL maxL : Option Nat) (patt mn mx : String)
    (minIt maxIt : Option Nat) (uniq : Bool) (reqn : List String) (err : VErr)
    (hsub : (parseJSONSchema env sub (reqn.contains key)).2 = some err) :
    parseJSONSchema env
        (.mk "object" items minL maxL patt mn mx minIt maxIt uniq
          ((key, some sub) :: rest) reqn)
        req
      = (none, some (.wrap ("invalid schema for property \"" ++ key ++ "\"") err)) := by
  rw [parseJSONSchema.eq_def]
  dsimp only
  simp only [String.reduceEq, reduceIte]
  rw [parseProps.eq_def]
  dsimp only
  rcases hps : parseJSONSchema env sub (reqn.contains key) with ⟨s1, e1⟩
  rw [hps] at hsub
  simp only at hsub
  subst hsub
  rfl

/-- The `string` case returns either a schema without an error or an
error without a schema. -/
theorem parseStringCase_shape (env : AdapterEnv) (minL maxL : Option Nat)
    (patt : String) (req : Bool) :
    (parseStringCase env minL maxL patt req).1 = none ∨
    (parseStringCase env minL maxL patt req).2 = none := by
  unfold parseStringCase
  repeat' split
  all_goals simp

/-- The `integer` case returns either a schema without an error or an
error without a schema. -/
theorem parseIntegerCase_shape (env : AdapterEnv) (mn mx : String) (req : Bool) :
    (parseIntegerCase env mn mx req).1 = none ∨
    (parseIntegerCase env mn mx req).2 = none := by
  unfold parseIntegerCase
  repeat' split
  all_goals simp

/-- The `number` case returns either a schema without an error or an
error without a schema. -/
theorem parseNumberCase_shape (env : AdapterEnv) (mn mx : String) (req : Bool) :
    (parseNumberCase env mn mx req).1 = none ∨
    (parseNumberCase env mn mx req).2 = none := by
  unfold parseNumberCase
  repeat' split
  all_goals simp

/-- On every input, the translation returns either a schema without an
error or an error without a schema — never both. -/
theorem parse_shape (env : AdapterEnv) (schema : JSONSchema) (req : Bool) :
    (parseJSONSchema env schema req).1 = none ∨
    (parseJSONSchema env schema req).2 = none := by
  obtain ⟨t, items, minL, maxL, patt, mn, mx, minIt, maxIt, uniq, props, reqn⟩ := schema
  rw [parseJSONSchema.eq_def]
  dsimp only
  repeat' split
  all_goals
    first
    | (left; rfl)
    | (right; rfl)
    | exact parseStringCase_shape env minL maxL patt req
    | exact parseIntegerCase_shape env mn mx req
    | exact parseNumberCase_shape env mn mx req

/-- C8: the translation fails with the `invalid type` sentinel on an
empty or unrecognized node type, with a wrapped pattern-compilation
error on an uncompilable declared pattern, with a bounds-parsing error on
an unreadable declared minimum or maximum, propagates a failing items or
property sub-schema upward wrapped with its position, and in every
failure returns no schema at all alongside the error. -/
theorem claim8_adapter_build_failures :
    (∀ (env : AdapterEnv) (schema : JSONSchema) (required : Bool),
      schema.type ∉ recognizedTypes →
      parseJSONSchema env schema required = (none, some errInvalidType)) ∧
    (∀ (env : AdapterEnv) (req : Bool) (items : Option JSONSchema)
      (minL maxL : Option Nat) (patt mn mx : String) (minIt maxIt : Option Nat)
      (uniq : Bool) (props : List (String × Option JSONSchema))
      (reqn : List String) (err : VErr),
      patt ≠ "" → env.compile patt = .error err →
      parseJSONSchema env
          (.mk "string" items minL maxL patt mn mx minIt maxIt uniq props reqn) req
        = (none, some (.wrap ("invalid pattern \"" ++ patt ++ "\"") err))) ∧
    (∀ (env : AdapterEnv) (req : Bool) (items : Option JSONSchema)
      (minL maxL : Option Nat) (patt mn mx : String) (minIt maxIt : Option Nat)
      (uniq : Bool) (props : List (String × Option JSONSchema))
      (reqn : List String) (err : VErr),
      mn ≠ "" → env.parseNumber mn = .error err →
      parseJSONSchema env
          (.mk "integer" items minL maxL patt mn mx minIt maxIt uniq props reqn) req
        = (none, some (.msg ("invalid `minimum` value \"" ++ mn ++ "\"")))) ∧
    (∀ (env : AdapterEnv) (req : Bool) (items : Option JSONSchema)
      (minL maxL : Option Nat) (patt mx : String) (minIt maxIt : Option Nat)
      (uniq : Bool) (props : List (String × Option JSONSchema))
      (reqn : List String) (err : VErr),
      mx ≠ "" → env.parseNumber mx = .error err →
      parseJSONSchema env
          (.mk "integer" items minL maxL patt "" mx minIt maxIt uniq props reqn) req
        = (none, some (.msg ("invalid `maximum` value \"" ++ mx ++ "\"")))) ∧
    (∀ (env : AdapterEnv) (req : Bool) (items : Option JSONSchema)
      (minL maxL : Option Nat) (patt mn mx : String) (minIt maxIt : Option Nat)
      (uniq : Bool) (props : List (String × Option JSONSchema))
      (reqn : List String) (err : VErr),
      mn ≠ "" → env.parseNumber mn = .error err →
      parseJSONSchema env
          (.mk "number" items minL maxL patt mn mx minIt maxIt uniq props reqn) req
        = (none, some (.wrap ("invalid `minimum` \"" ++ mn ++ "\"") err))) ∧
    (∀ (env : AdapterEnv) (req : Bool) (sub : JSONSchema)
      (minL maxL : Option Nat) (patt mn mx : String) (minIt maxIt : Option Nat)
      (uniq : Bool) (props : List (String × Option JSONSchema))
      (reqn : List String) (err : VErr),
      (parseJSONSchema env sub false).2 = some err →
      parseJSONSchema env
          (.mk "array" (some sub) minL maxL patt mn mx minIt maxIt uniq props reqn)
          req
        = (none, some (.wrap "invalid item schema" err))) ∧
    (∀ (env : AdapterEnv) (req : Bool) (key : String) (sub : JSONSchema)
      (rest : List (String × Option JSONSchema)) (items : Option JSONSchema)
      (minL maxL : Option Nat) (patt mn mx : String) (minIt maxIt : Option Nat)
      (uniq : Bool) (reqn : List String) (err : VErr),
      (parseJSONSchema env sub (reqn.contains key)).2 = some err →
      parseJSONSchema env
          (.mk "object" items minL maxL patt mn mx minIt maxIt uniq
            ((key, some sub) :: rest) reqn)
          req
        = (none,
            some (.wrap ("invalid schema for property \"" ++ key ++ "\"") err))) ∧
    (∀ (env : AdapterEnv) (schema : JSONSchema) (required : Bool),
      (parseJSONSchema env schema required).2 ≠ none →
      (parseJSONSchema env schema required).1 = none) := by
  refine ⟨parse_invalid_type, ?_, ?_, ?_, ?_, parse_items_error,
    parse_property_error, ?_⟩
  · intro env req items minL maxL patt mn mx minIt maxIt uniq props reqn err hp hc
    exact (parse_mk_string env req items minL maxL patt mn mx minIt maxIt uniq
      props reqn).trans (parseStringCase_pattern_error env minL maxL patt req err hp hc)
  · intro env req items minL maxL patt mn mx minIt maxIt uniq props reqn err hmn hc
    exact (parse_mk_integer env req items minL maxL patt mn mx minIt maxIt uniq
      props reqn).trans (parseIntegerCase_min_error env mn mx req err hmn hc)
  · intro env req items minL maxL patt mx minIt maxIt uniq props reqn err hmx hc
    exact (parse_mk_integer env req items minL maxL patt "" mx minIt maxIt uniq
      props reqn).trans (parseIntegerCase_max_error env mx req err hmx hc)
  · intro env req items minL maxL patt mn mx minIt maxIt uniq props reqn err hmn hc
    exact (parse_mk_number env req items minL maxL patt mn mx minIt maxIt uniq
      props reqn).trans (parseNumberCase_min_error env mn mx req err hmn hc)
  · intro env schema required h2
    rcases parse_shape env schema required with h | h
    · exact h
    · exact absurd h h2

/-- Witness for C8: concrete failing translations under an environment
whose pattern compiler and number parser always fail. -/
theorem claim8_witness :
    ("zzz" ∉ recognizedTypes) ∧
    parseJSONSchema adapterEnvFail (jsNode "zzz") false
      = (none, some errInvalidType) ∧
    parseJSONSchema adapterEnvFail
        (.mk "string" none none none "[" "" "" none none false [] []) false
      = (none, some (.wrap "invalid pattern \"[\"" (.msg "bad re"))) ∧
    parseJSONSchema adapterEnvFail
        (.mk "integer" none none none "" "x" "" none none false [] []) false
      = (none, some (.msg "invalid `minimum` value \"x\"")) ∧
    parseJSONSchema adapterEnvFail
        (.mk "array" (some (jsNode "zzz")) none none "" "" "" none none false [] [])
        false
      = (none, some (.wrap "invalid item schema" errInvalidType)) ∧
    parseJSONSchema adapterEnvFail
        (.mk "object" none none none "" "" "" none none false
          [("k", some (jsNode "zzz"))] []) false
      = (none, some (.wrap "invalid schema for property \"k\"" errInvalidType)) ∧
    (parseJSONSchema adapterEnvFail (jsNode "zzz") false).1 = none := by
  have h1 := claim8_adapter_build_failures.1 adapterEnvFail (jsNode "zzz") false
    (by decide)
  refine ⟨by decide, h1, ?_, ?_, ?_, ?_, ?_⟩
  · exact claim8_adapter_build_failures.2.1 adapterEnvFail false none none none
      "[" "" "" none none false [] [] (.msg "bad re") (by decide) rfl
  · exact claim8_adapter_build_failures.2.2.1 adapterEnvFail false none none none
      "" "x" "" none none false [] [] (.msg "bad num") (by decide) rfl
  · exact claim8_adapter_build_failures.2.2.2.2.2.1 adapterEnvFail false
      (jsNode "zzz") none none "" "" "" none none false [] [] errInvalidType
      (by rw [h1])
  · exact claim8_adapter_build_failures.2.2.2.2.2.2.1 adapterEnvFail false "k"
      (jsNode "zzz") [] none none none "" "" "" none none false [] errInvalidType
      (by rw [show (([] : List String).contains "k") = false from rfl, h1])
  · exact claim8_adapter_build_failures.2.2.2.2.2.2.2 adapterEnvFail
      (jsNode "zzz") false (by rw [h1]; simp)
